import Mathlib

/-!
Verification development for the `aws_lambda_layer` repository.

The Python sources are shallowly embedded:

* `vendor/hashes.py` and `utils.py` (content hashing) over an executable
  SHA-256 on `Nat` byte lists;
* `context.py` (path resolution) over path-segment lists;
* `layer.py` (idempotency decision, publish sequencing, permissions) over an
  explicit S3-state-passing semantics with `Except` for raised exceptions;
* `source.py` (glob filtering, source build) over an abstract pattern matcher.
-/

namespace AwsLambdaLayer

/-! ## Executable SHA-256 over `Nat`

Faithful embedding of `hashlib.sha256` as used by `vendor/hashes.py` and
`utils.py`: bytes are `Nat` values below 256, words are `Nat` values reduced
modulo `2^32`. -/

def M32 : Nat := 4294967296

def rotr32 (w n : Nat) : Nat := ((n >>> w) ||| (n <<< (32 - w))) % M32

def xor3 (a b c : Nat) : Nat := (a ^^^ b) ^^^ c

def bigSigma0 (x : Nat) : Nat := xor3 (rotr32 2 x) (rotr32 13 x) (rotr32 22 x)

def bigSigma1 (x : Nat) : Nat := xor3 (rotr32 6 x) (rotr32 11 x) (rotr32 25 x)

def smallSigma0 (x : Nat) : Nat := xor3 (rotr32 7 x) (rotr32 18 x) (x >>> 3)

def smallSigma1 (x : Nat) : Nat := xor3 (rotr32 17 x) (rotr32 19 x) (x >>> 10)

/-- The 64 SHA-256 round constants of FIPS 180-4, written in decimal. -/
def shaK : List Nat := [
  1116352408, 1899447441, 3049323471, 3921009573, 961987163,
  1508970993, 2453635748, 2870763221, 3624381080, 310598401,
  607225278, 1426881987, 1925078388, 2162078206, 2614888103,
  3248222580, 3835390401, 4022224774, 264347078, 604807628,
  770255983, 1249150122, 1555081692, 1996064986, 2554220882,
  2821834349, 2952996808, 3210313671, 3336571891, 3584528711,
  113926993, 338241895, 666307205, 773529912, 1294757372,
  1396182291, 1695183700, 1986661051, 2177026350, 2456956037,
  2730485921, 2820302411, 3259730800, 3345764771, 3516065817,
  3600352804, 4094571909, 275423344, 430227734, 506948616,
  659060556, 883997877, 958139571, 1322822218, 1537002063,
  1747873779, 1955562222, 2024104815, 2227730452, 2361852424,
  2428436474, 2756734187, 3204031479, 3329325298]

/-- The eight SHA-256 initial hash values, written in decimal. -/
def shaH0 : List Nat := [
  1779033703, 3144134277, 1013904242, 2773480762, 1359893119,
  2600822924, 528734635, 1541459225]

def padMsg (m : List Nat) : List Nat :=
  let L := m.length
  let z := (120 - ((L + 1) % 64)) % 64
  m ++ [128] ++ List.replicate z 0 ++
    ([56, 48, 40, 32, 24, 16, 8, 0].map (fun s => ((L * 8) >>> s) % 256))

def toWords : List Nat → List Nat
  | b0 :: b1 :: b2 :: b3 :: rest =>
    (b0 * 16777216 + b1 * 65536 + b2 * 256 + b3) :: toWords rest
  | _ => []

/-- Split a byte list into 64-byte blocks; the fuel argument keeps the
recursion structural so that the kernel can evaluate it. -/
def toBlocksFuel : Nat → List Nat → List (List Nat)
  | 0, _ => []
  | _, [] => []
  | fuel + 1, a :: rest => ((a :: rest).take 64) :: toBlocksFuel fuel ((a :: rest).drop 64)

def toBlocks (m : List Nat) : List (List Nat) := toBlocksFuel m.length m

/-- Extend the reversed message-schedule word list (most recent word first)
by `k` further words. -/
def extendW : Nat → List Nat → List Nat
  | 0, ws => ws
  | k + 1, ws =>
    let g := fun i => ws.getD i 0
    extendW k (((smallSigma1 (g 1) + g 6 + smallSigma0 (g 14) + g 15) % M32) :: ws)

structure ShaState where
  a : Nat
  b : Nat
  c : Nat
  d : Nat
  e : Nat
  f : Nat
  g : Nat
  h : Nat

def shaRound (st : ShaState) (kw : Nat × Nat) : ShaState :=
  let ch := (st.e &&& st.f) ^^^ ((st.e ^^^ (M32 - 1)) &&& st.g)
  let t1 := (st.h + bigSigma1 st.e + ch + kw.1 + kw.2) % M32
  let mj := xor3 (st.a &&& st.b) (st.a &&& st.c) (st.b &&& st.c)
  let t2 := (bigSigma0 st.a + mj) % M32
  ⟨(t1 + t2) % M32, st.a, st.b, st.c, (st.d + t1) % M32, st.e, st.f, st.g⟩

def compressBlock (H : List Nat) (block : List Nat) : List Nat :=
  let ws := (extendW 48 (toWords block).reverse).reverse
  let g := fun i => H.getD i 0
  let st0 : ShaState := ⟨g 0, g 1, g 2, g 3, g 4, g 5, g 6, g 7⟩
  let st := (shaK.zip ws).foldl shaRound st0
  [(g 0 + st.a) % M32, (g 1 + st.b) % M32, (g 2 + st.c) % M32, (g 3 + st.d) % M32,
   (g 4 + st.e) % M32, (g 5 + st.f) % M32, (g 6 + st.g) % M32, (g 7 + st.h) % M32]

def sha256Bytes (m : List Nat) : List Nat :=
  let H := (toBlocks (padMsg m)).foldl compressBlock shaH0
  (H.map (fun w => [(w >>> 24) % 256, (w >>> 16) % 256, (w >>> 8) % 256, w % 256])).flatten

def nibbleChar : Nat → Char
  | 0 => '0' | 1 => '1' | 2 => '2' | 3 => '3' | 4 => '4'
  | 5 => '5' | 6 => '6' | 7 => '7' | 8 => '8' | 9 => '9'
  | 10 => 'a' | 11 => 'b' | 12 => 'c' | 13 => 'd' | 14 => 'e' | _ => 'f'

/-- Lowercase hex rendering, as produced by `hashlib`'s `hexdigest()`. -/
def bytesToHex (bs : List Nat) : String :=
  String.mk (bs.map (fun b => [nibbleChar (b / 16), nibbleChar (b % 16)])).flatten

def sha256HexOfBytes (m : List Nat) : String := bytesToHex (sha256Bytes m)

/-- UTF-8 encoding of one character, as `str.encode("utf-8")` encodes each
code point. -/
def utf8Char (c : Char) : List Nat :=
  let n := c.toNat
  if n < 128 then [n]
  else if n < 2048 then [192 + n / 64, 128 + n % 64]
  else if n < 65536 then [224 + n / 4096, 128 + (n / 64) % 64, 128 + n % 64]
  else [240 + n / 262144, 128 + (n / 4096) % 64, 128 + (n / 64) % 64, 128 + n % 64]

def utf8Bytes (s : String) : List Nat := (s.data.map utf8Char).flatten

/-- Embeds `Hashes.of_str` (with the repository-wide sha256/hexdigest
configuration) and `utils.sha256_of_bytes` applied to `s.encode("utf-8")`. -/
def sha256HexOfString (s : String) : String := sha256HexOfBytes (utf8Bytes s)

/-! ## Python decimal rendering, `zfill`, and string order

Embeds `str(version)`, `str.zfill`, and Python's code-point-lexicographic
string comparison, used by `context.py` (`ZFILL = 6`) and by `sorted(...)`
in the hashing code. -/

def pyDigitChar : Nat → Char
  | 0 => '0' | 1 => '1' | 2 => '2' | 3 => '3' | 4 => '4'
  | 5 => '5' | 6 => '6' | 7 => '7' | 8 => '8' | _ => '9'

/-- Decimal digits of `n`, most significant first, with explicit fuel so the
recursion is structural (any fuel above the digit count gives the value). -/
def pyStrNatAux : Nat → Nat → List Char
  | 0, _ => []
  | fuel + 1, n =>
    if n < 10 then [pyDigitChar n]
    else pyStrNatAux fuel (n / 10) ++ [pyDigitChar (n % 10)]

def pyStrNatChars (n : Nat) : List Char := pyStrNatAux (n + 1) n

/-- Embeds Python `str(n)` for a nonnegative integer. -/
def pyStrNat (n : Nat) : String := String.mk (pyStrNatChars n)

/-- Embeds Python `s.zfill(w)` for a digit-only string: pad with zeros on the
left up to width `w` (never truncates). -/
def pyZfill (s : String) (w : Nat) : String :=
  String.mk (List.replicate (w - s.data.length) '0' ++ s.data)

/-- Code-point lexicographic strict order on character lists; this is the
order Python uses to compare strings. -/
def lexLtChars : List Char → List Char → Bool
  | [], [] => false
  | [], _ :: _ => true
  | _ :: _, [] => false
  | a :: as, b :: bs => decide (a.toNat < b.toNat) || (a.toNat == b.toNat && lexLtChars as bs)

def strLexLt (a b : String) : Bool := lexLtChars a.data b.data

/-! ## Path resolution (`context.py`)

Local paths and S3 keys are modelled as lists of path segments, the values
`pathlib.Path.joinpath` / `S3Path.joinpath` append. -/

def ZFILL : Nat := 6

/-- The version path segment `str(version).zfill(ZFILL)` used by
`BuildContext.get_s3path_layer_zip` and
`BuildContext.get_s3path_layer_requirements_txt`. -/
def versionSegment (version : Nat) : String := pyZfill (pyStrNat version) ZFILL

abbrev S3Key := List String

def s3pathTmpSourceZip (root : S3Key) : S3Key := root ++ ["tmp", "source.zip"]

def s3pathTmpLayerZip (root : S3Key) : S3Key := root ++ ["tmp", "layer.zip"]

def s3pathTmpLayerRequirementsTxt (root : S3Key) : S3Key := root ++ ["tmp", "requirements.txt"]

def s3pathLayerZip (root : S3Key) (version : Nat) : S3Key :=
  root ++ ["layer", versionSegment version, "layer.zip"]

def s3pathLayerRequirementsTxt (root : S3Key) (version : Nat) : S3Key :=
  root ++ ["layer", versionSegment version, "requirements.txt"]

def s3dirSource (root : S3Key) (version : String) : S3Key :=
  root ++ ["source", version]

/-- Configuration errors of the repository: accessing a derived path on a
`BuildContext` whose required root is unset (an attribute error on `None` in
`context.py`), and `utils.ensure_exact_one_true` rejecting a flag list. -/
inductive ConfigError where
  | missingRoot : ConfigError
  | notExactOneTrue : ConfigError
deriving DecidableEq, Repr

/-- Embeds `context.BuildContext`: both roots are optional and every derived
path is a pure function of them. -/
structure BuildContext where
  dir_build : Option (List String)
  s3dir_lambda : Option S3Key
deriving DecidableEq, Repr

namespace BuildContext

def requireLocal (ctx : BuildContext) (rest : List String) :
    Except ConfigError (List String) :=
  match ctx.dir_build with
  | none => .error .missingRoot
  | some d => .ok (d ++ rest)

def requireRemote (ctx : BuildContext) (rest : List String) :
    Except ConfigError S3Key :=
  match ctx.s3dir_lambda with
  | none => .error .missingRoot
  | some r => .ok (r ++ rest)

def dir_python (ctx : BuildContext) : Except ConfigError (List String) :=
  ctx.requireLocal ["python"]

def dir_deploy (ctx : BuildContext) : Except ConfigError (List String) :=
  ctx.requireLocal ["deploy"]

def path_source_zip (ctx : BuildContext) : Except ConfigError (List String) :=
  ctx.requireLocal ["source.zip"]

def path_layer_zip (ctx : BuildContext) : Except ConfigError (List String) :=
  ctx.requireLocal ["layer.zip"]

def s3path_tmp_source_zip (ctx : BuildContext) : Except ConfigError S3Key :=
  ctx.requireRemote ["tmp", "source.zip"]

def s3path_tmp_layer_zip (ctx : BuildContext) : Except ConfigError S3Key :=
  ctx.requireRemote ["tmp", "layer.zip"]

def s3path_tmp_layer_requirements_txt (ctx : BuildContext) : Except ConfigError S3Key :=
  ctx.requireRemote ["tmp", "requirements.txt"]

def get_s3path_layer_zip (ctx : BuildContext) (version : Nat) : Except ConfigError S3Key :=
  ctx.requireRemote ["layer", versionSegment version, "layer.zip"]

def get_s3path_layer_requirements_txt (ctx : BuildContext) (version : Nat) :
    Except ConfigError S3Key :=
  ctx.requireRemote ["layer", versionSegment version, "requirements.txt"]

def get_s3dir_source (ctx : BuildContext) (version : String) : Except ConfigError S3Key :=
  ctx.requireRemote ["source", version]

end BuildContext

/-- Embeds `utils.ensure_exact_one_true`: `sum(lst)` over Python booleans is
the count of `True` entries. -/
def ensure_exact_one_true (lst : List Bool) : Except ConfigError Unit :=
  if lst.countP id ≠ 1 then .error .notExactOneTrue else .ok ()

/-- The argument-validation step of `source.build_source_artifacts`, which
runs `ensure_exact_one_true` on the four strategy flags before any other
work. -/
def build_source_artifacts_validate (use_pip use_build use_poetry use_pathlib : Bool) :
    Except ConfigError Unit :=
  ensure_exact_one_true [use_pip, use_build, use_poetry, use_pathlib]

/-- Fixed-width least-significant-first decimal digit list; proof-side
companion of `pyZfill (pyStrNat v) w`. -/
def lsDigits : Nat → Nat → List Char
  | 0, _ => []
  | w + 1, v => pyDigitChar (v % 10) :: lsDigits w (v / 10)

/-! ## Filesystem model and the content-hash component

`vendor/hashes.py` and `utils.py` read a filesystem through `Path.is_file`,
`Path.is_dir`, `Path.read_bytes` and `Path.glob("**/*")`.  A filesystem is a
finite table of files (absolute path string to byte content) plus a set of
directory paths; `glob` enumerates in the stored, unspecified order. -/

structure PyFS where
  files : List (String × List Nat)
  dirs : List String
deriving DecidableEq, Repr

namespace PyFS

def isFile (fs : PyFS) (p : String) : Bool := (fs.files.lookup p).isSome

def isDir (fs : PyFS) (p : String) : Bool := fs.dirs.contains p

/-- `Path.read_bytes`; `none` models the OS error raised when `p` is not a
regular file (e.g. `IsADirectoryError`). -/
def readBytes (fs : PyFS) (p : String) : Option (List Nat) := fs.files.lookup p

def isUnder (dir p : String) : Bool := List.isPrefixOf (dir.data ++ ['/']) p.data

/-- `Path(dir).glob("**/*")`: every file and directory strictly under `dir`,
in the filesystem's enumeration order. -/
def glob (fs : PyFS) (dir : String) : List String :=
  (fs.files.map Prod.fst ++ fs.dirs).filter (fun p => isUnder dir p)

end PyFS

/-- Nonstrict Python string order, the order in which `sorted` lists its
output. -/
def strLe (a b : String) : Prop := strLexLt b a = false

/-- Insertion into a list sorted by Python string order. -/
def insertSorted (x : String) : List String → List String
  | [] => [x]
  | y :: ys => if strLexLt y x then y :: insertSorted x ys else x :: y :: ys

/-- Embeds Python `sorted(..., key=lambda x: str(x))`: the unique listing of
the input in nondecreasing code-point-lexicographic order (implemented here
as insertion sort; equal keys are equal strings, so any correct sort computes
the same list). -/
def sortStrings : List String → List String
  | [] => []
  | x :: xs => insertSorted x (sortStrings xs)

namespace Hashes

/-- `Hashes.of_bytes` under the repository configuration
(`hashes.use_sha256().use_hexdigesst()`). -/
def of_bytes (b : List Nat) : String := sha256HexOfBytes b

/-- `Hashes.of_str`: hash of the UTF-8 encoding of a string. -/
def of_str (s : String) : String := sha256HexOfString s

/-- `Hashes.of_file`: hash of the file's bytes (the chunked read in
`of_file_object` accumulates exactly the full content).  Only ever called on
paths that are regular files; `[]` stands for the unreachable missing-file
branch. -/
def of_file (fs : PyFS) (p : String) : String :=
  of_bytes ((fs.readBytes p).getD [])

/-- `Hashes.of_folder`: `NotADirectoryError` when `abspath` is not a
directory, else the hash of the concatenation of every contained file's hash,
with the glob listing sorted by path string. -/
def of_folder (fs : PyFS) (dir : String) : Option String :=
  if fs.isDir dir then
    some (of_str (String.join
      (((sortStrings (fs.glob dir)).filter (fun p => fs.isFile p)).map
        (fun p => of_file fs p))))
  else none

/-- One loop iteration of `Hashes.of_paths`: a directory contributes its
`of_folder` hash, a file its `of_file` hash, anything else is skipped. -/
def entryHash (fs : PyFS) (p : String) : Option String :=
  if fs.isDir p then of_folder fs p
  else if fs.isFile p then some (of_file fs p)
  else none

/-- `Hashes.of_paths`: concatenate the entry hashes in caller order and hash
the joined string. -/
def of_paths (fs : PyFS) (paths : List String) : String :=
  of_str (String.join (paths.filterMap (entryHash fs)))

end Hashes

/-- `utils.sha256_of_bytes`. -/
def sha256_of_bytes (b : List Nat) : String := sha256HexOfBytes b

/-- The contribution of one loop iteration of `utils.sha256_of_paths`: a
directory contributes the hash of `p.read_bytes()` for every sorted glob
entry, with no `is_file` filter, so reading a subdirectory raises
(`IsADirectoryError`, modelled as `Except.error`); a file contributes its
content hash; anything else contributes nothing. -/
def sha256_of_paths_contribution (fs : PyFS) (p : String) :
    Except String (List String) :=
  if fs.isDir p then
    (sortStrings (fs.glob p)).mapM
      (fun q =>
        match fs.readBytes q with
        | some c => Except.ok (sha256_of_bytes c)
        | none => Except.error ("IsADirectoryError"))
  else if fs.isFile p then
    Except.ok [sha256_of_bytes ((fs.readBytes p).getD [])]
  else Except.ok []

/-- The hash list accumulated by the loop of `utils.sha256_of_paths`, in
iteration order, stopping at the first raised error. -/
def sha256_of_paths_hashes (fs : PyFS) : List String → Except String (List String)
  | [] => .ok []
  | p :: rest => do
    let hs ← sha256_of_paths_contribution fs p
    let t ← sha256_of_paths_hashes fs rest
    pure (hs ++ t)

/-- `utils.sha256_of_paths`: hash of the UTF-8 encoding of the joined hash
list. -/
def sha256_of_paths (fs : PyFS) (paths : List String) : Except String String :=
  (sha256_of_paths_hashes fs paths).map (fun hs => sha256HexOfBytes (utf8Bytes (String.join hs)))

/-! ## S3 state and the layer pipeline (`layer.py`)

S3 is a map from keys to object contents.  Exceptions raised by the AWS
client are modelled with `Except`; an error carries the S3 state at the point
of failure so that invariants can be stated about aborted runs too. -/

def S3State := S3Key → Option String

def S3State.write (s : S3State) (k : S3Key) (c : String) : S3State :=
  fun q => if q = k then some c else s q

/-- `S3Path.copy_to(..., overwrite=False)`: the storage layer rejects the
copy when the destination already exists; copying a missing source is also an
error. -/
inductive PromoteError where
  | destinationExists : PromoteError
  | sourceMissing : PromoteError
deriving DecidableEq, Repr

def copyNoOverwrite (s : S3State) (src dst : S3Key) :
    Except (PromoteError × S3State) S3State :=
  match s dst with
  | some _ => .error (.destinationExists, s)
  | none =>
    match s src with
    | some c => .ok (s.write dst c)
    | none => .error (.sourceMissing, s)

/-- Environment of one layer-pipeline invocation: the `list_layer_versions`
answer, the `publish_layer_version` answer (the API returns a
`LayerVersionArn` whose trailing colon-separated segment is the integer
version; `publishedVersion` is that parsed integer), the content of the local
`requirements.txt`, and the content of the locally built `layer.zip`. -/
structure LayerEnv where
  s3 : S3State
  latestVersion : Option Nat
  publishedVersion : Nat
  publishedArn : String
  localRequirements : String
  builtZipContent : String

/-- `layer.get_latest_layer_version`: the version of the first entry of
`list_layer_versions(MaxItems=1)`, or `None` when nothing was published. -/
def get_latest_layer_version (env : LayerEnv) : Option Nat := env.latestVersion

/-- `layer.is_current_layer_the_same_as_latest_one`: `localRequirements` is
the text of the local requirements file. -/
def is_current_layer_the_same_as_latest_one (s3 : S3State)
    (latest_layer_version : Option Nat) (localRequirements : String)
    (s3root : S3Key) : Bool :=
  match latest_layer_version with
  | none => false
  | some v =>
    match s3 (s3pathLayerRequirementsTxt s3root v) with
    | none => false
    | some latest_deps => localRequirements == latest_deps

/-- `layer.build_layer_artifacts` result: the returned value is
`hashes.of_bytes(path_requirements.read_bytes())`. -/
def build_layer_artifacts_sha256 (localRequirements : String) : String :=
  Hashes.of_bytes (utf8Bytes localRequirements)

/-- `layer.upload_layer_artifacts`: overwrite both staging objects and
return their keys. -/
def upload_layer_artifacts (s3 : S3State) (s3root : S3Key)
    (zipContent reqContent : String) : S3State × S3Key × S3Key :=
  let s1 := s3.write (s3pathTmpLayerZip s3root) zipContent
  let s2 := s1.write (s3pathTmpLayerRequirementsTxt s3root) reqContent
  (s2, s3pathTmpLayerZip s3root, s3pathTmpLayerRequirementsTxt s3root)

structure PublishResult where
  layer_version : Nat
  layer_version_arn : String
  s3path_layer_zip : S3Key
  s3path_layer_requirements_txt : S3Key
  s3 : S3State

/-- `layer.publish_layer`: publish from the staging archive, then promote
both staged objects into the version-keyed location with `overwrite=False`
(zip first, then requirements). -/
def publish_layer (s3 : S3State) (s3root : S3Key) (publishedVersion : Nat)
    (publishedArn : String) : Except (PromoteError × S3State) PublishResult := do
  let s1 ← copyNoOverwrite s3 (s3pathTmpLayerZip s3root)
    (s3pathLayerZip s3root publishedVersion)
  let s2 ← copyNoOverwrite s1 (s3pathTmpLayerRequirementsTxt s3root)
    (s3pathLayerRequirementsTxt s3root publishedVersion)
  pure ⟨publishedVersion, publishedArn, s3pathLayerZip s3root publishedVersion,
    s3pathLayerRequirementsTxt s3root publishedVersion, s2⟩

structure LayerDeployment where
  layer_sha256 : String
  layer_version : Nat
  layer_version_arn : String
  s3path_layer_zip : S3Key
  s3path_layer_requirements_txt : S3Key
deriving Repr

/-- `layer.deploy_layer`: query the latest version, stop with the `None`
sentinel when up to date, otherwise build, upload and publish. -/
def deploy_layer (env : LayerEnv) (s3root : S3Key) :
    Except (PromoteError × S3State) (Option LayerDeployment × S3State) := do
  let latest_layer_version := get_latest_layer_version env
  if is_current_layer_the_same_as_latest_one env.s3 latest_layer_version
      env.localRequirements s3root then
    pure (none, env.s3)
  else
    let layer_sha256 := build_layer_artifacts_sha256 env.localRequirements
    let (s1, _, _) := upload_layer_artifacts env.s3 s3root env.builtZipContent
      env.localRequirements
    let r ← publish_layer s1 s3root env.publishedVersion env.publishedArn
    pure (some ⟨layer_sha256, r.layer_version, r.layer_version_arn,
      r.s3path_layer_zip, r.s3path_layer_requirements_txt⟩, r.s3)

/-! ## Layer permissions (`layer.py`)

The AWS client raises `botocore.exceptions.ClientError` carrying a structured
error code; responses are opaque payloads. -/

structure AwsClientError where
  code : String
deriving DecidableEq, Repr

/-- `layer.action_to_statement_mapper` (keys are the values of
`LayerPermissionActionEnum`). -/
def action_to_statement_mapper : List (String × String) :=
  [("lambda:GetLayerVersion", "GetLayerVersion"),
   ("lambda:ListLayerVersions", "ListLayerVersions")]

/-- `layer.build_statement_id`; `none` for `organization_id` models the
`NOTHING` sentinel, and a `none` result models the `KeyError` raised when
`action` is not a key of the mapping. -/
def build_statement_id (action principal : String) (organization_id : Option String) :
    Option String :=
  (action_to_statement_mapper.lookup action).map (fun fragment =>
    match organization_id with
    | none =>
      "principal-" ++ principal ++ "-action-" ++ fragment
    | some org =>
      "principal-" ++ principal ++ "-organization-" ++ org ++ "-action-" ++ fragment)

/-- The keyword arguments `grant_layer_permission` passes to
`add_layer_version_permission` after `resolve_kwargs` drops the `NOTHING`
sentinels. -/
structure AddLayerVersionPermissionRequest where
  layerName : String
  versionNumber : Nat
  statementId : String
  principal : String
  action : String
  organizationId : Option String
  revisionId : Option String
deriving DecidableEq, Repr

/-- The request construction of `layer.grant_layer_permission`: the statement
id is the caller's when supplied, otherwise derived by `build_statement_id`;
the `Principal` field is set to `bsm.aws_account_id`. -/
def grant_layer_permission_request (aws_account_id layer_name : String)
    (version_number : Nat) (principal : String) (statement_id : Option String)
    (action : String) (organization_id revision_id : Option String) :
    Option AddLayerVersionPermissionRequest :=
  (match statement_id with
   | some sid => some sid
   | none => build_statement_id action principal organization_id).map
    (fun sid =>
      { layerName := layer_name
        versionNumber := version_number
        statementId := sid
        principal := aws_account_id
        action := action
        organizationId := organization_id
        revisionId := revision_id })

/-- Outcomes the AWS API would give to the calls `grant_layer_permission` can
make, in order: the first `add_layer_version_permission` attempt, the
`remove_layer_version_permission` cleanup, and the retried add. -/
structure GrantApiOracle where
  addAttempt1 : Except AwsClientError String
  removeAttempt : Except AwsClientError String
  addAttempt2 : Except AwsClientError String

/-- Trace of one `grant_layer_permission` run: its result, how many times
`add_layer_version_permission` was called, and whether
`remove_layer_version_permission` was called. -/
def grant_layer_permission (o : GrantApiOracle) :
    Except AwsClientError String × Nat × Bool :=
  match o.addAttempt1 with
  | .ok res => (.ok res, 1, false)
  | .error e =>
    if e.code = "ResourceConflictException" then
      match o.removeAttempt with
      | .ok _ => (o.addAttempt2, 2, true)
      | .error e2 => (.error e2, 1, true)
    else (.error e, 1, false)

/-- `layer.revoke_layer_permission` around the single
`remove_layer_version_permission` call: `ok none` is the explicit
nothing-to-revoke result. -/
def revoke_layer_permission (removeAttempt : Except AwsClientError String) :
    Except AwsClientError (Option String) :=
  match removeAttempt with
  | .ok res => .ok (some res)
  | .error e =>
    if e.code = "ResourceNotFoundException" then .ok none
    else .error e

/-! ## Glob filtering and the pathlib source build (`source.py`)

`relpath.match(pattern)` is abstracted by a boolean matcher: for the fixed
relative path under consideration, `m pat` says whether the path matches the
glob pattern `pat`. -/

/-- `source.do_we_include`, with `m` the pattern matcher of the given
relative path (`inc`/`exc` are the Python `include`/`exclude` parameters;
`include` is a Lean keyword). -/
def do_we_include (m : String → Bool) (inc exc : List String) : Bool :=
  if inc.length = 0 ∧ exc.length = 0 then
    true
  else if inc.length > 0 ∧ exc.length > 0 then
    let match_any_include := inc.any m
    let match_any_exclude := exc.any m
    if match_any_exclude then false else match_any_include
  else if inc.length > 0 ∧ exc.length = 0 then
    inc.any m
  else
    !(exc.any m)

/-- Argument normalization shared by the `include`/`exclude` parameters of
`build_source_python_lib`: `None` becomes `[]`, a single string becomes a
one-element list. -/
def resolvePatterns : Option (List String) → List String
  | none => []
  | some l => l

/-- The effective exclude list of `source.build_source_python_lib`: the
caller's patterns with `__pycache__`, `*.pyc`, `*.pyo` appended. -/
def build_source_python_lib_exclude (exc : Option (List String)) : List String :=
  resolvePatterns exc ++ ["__pycache__", "*.pyc", "*.pyo"]

/-- The set of relative paths `build_source_python_lib` copies: the source
files that pass `do_we_include` under the resolved include patterns and the
effective exclude patterns (`matcherOf rp` is the glob matcher of relative
path `rp`). -/
def build_source_python_lib_copies (matcherOf : String → String → Bool)
    (sourceFiles : List String) (inc exc : Option (List String)) :
    List String :=
  sourceFiles.filter (fun rp =>
    do_we_include (matcherOf rp) (resolvePatterns inc)
      (build_source_python_lib_exclude exc))

/-- Concrete S3 state used as a witness fixture: one already promoted version
`000001` object plus a populated staging area. -/
def c2WitnessS3 : S3State := fun q =>
  if q = ["r", "layer", "000001", "layer.zip"] then some ("old")
  else if q = ["r", "tmp", "layer.zip"] then some ("z")
  else if q = ["r", "tmp", "requirements.txt"] then some ("rq")
  else none

/-- Concrete layer environment used as a witness fixture. -/
def c2WitnessEnv : LayerEnv :=
  ⟨c2WitnessS3, none, 1, "arn:1", "requests==2.0", "zipbytes"⟩

/-- Witness fixture: a directory `/a` with two files, stored in one
enumeration order. -/
def c3WitnessFS1 : PyFS := ⟨[("/a/x", [0]), ("/a/y", [1])], ["/a"]⟩

/-- Witness fixture: the same filesystem, enumerated in the opposite order. -/
def c3WitnessFS2 : PyFS := ⟨[("/a/y", [1]), ("/a/x", [0])], ["/a"]⟩

/-- Witness fixture: a single regular file, no directories. -/
def c4WitnessFS : PyFS := ⟨[("/f", [97])], []⟩

/-- Counterexample fixture for C4: a directory containing one empty file. -/
def c4CounterFS : PyFS := ⟨[("/d/f", [])], ["/d"]⟩

/-! ## Properties of the Python string order -/

theorem char_toNat_inj {a b : Char} (h : a.toNat = b.toNat) : a = b := by
  have hc : Char.ofNat a.toNat = Char.ofNat b.toNat := by rw [h]
  simpa [Char.ofNat_toNat] using hc

theorem string_ext {a b : String} (h : a.data = b.data) : a = b := by
  cases a; cases b; simp_all

theorem data_mk (l : List Char) : (String.mk l).data = l := rfl

theorem lexLtChars_cons (a b : Char) (as bs : List Char) :
    lexLtChars (a :: as) (b :: bs) = true ↔
      a.toNat < b.toNat ∨ (a.toNat = b.toNat ∧ lexLtChars as bs = true) := by
  simp [lexLtChars]

theorem lexLtChars_asymm : ∀ (as bs : List Char),
    lexLtChars as bs = true → lexLtChars bs as = false := by
  intro as
  induction as with
  | nil => intro bs h; cases bs <;> simp [lexLtChars] at h ⊢
  | cons a as ih =>
    intro bs h
    cases bs with
    | nil => simp [lexLtChars] at h
    | cons b bs =>
      rw [lexLtChars_cons] at h
      rw [Bool.eq_false_iff]
      intro hc
      rw [lexLtChars_cons] at hc
      rcases h with h | ⟨he, h⟩
      · rcases hc with hc | ⟨hce, _⟩ <;> omega
      · rcases hc with hc | ⟨_, hc⟩
        · omega
        · have hf := ih bs h
          rw [hc] at hf
          cases hf

theorem lexLtChars_conn : ∀ (as bs : List Char),
    lexLtChars as bs = false → lexLtChars bs as = false → as = bs := by
  intro as
  induction as with
  | nil => intro bs h _; cases bs <;> simp_all [lexLtChars]
  | cons a as ih =>
    intro bs h h2
    cases bs with
    | nil => simp_all [lexLtChars]
    | cons b bs =>
      rw [Bool.eq_false_iff] at h h2
      rw [Ne, lexLtChars_cons] at h h2
      push_neg at h h2
      have hab : a.toNat = b.toNat := by omega
      have hr : lexLtChars as bs = false := by
        rw [Bool.eq_false_iff]; exact h.2 hab
      have hr2 : lexLtChars bs as = false := by
        rw [Bool.eq_false_iff]; exact h2.2 hab.symm
      rw [char_toNat_inj hab, ih bs hr hr2]

theorem lexLtChars_trans : ∀ (as bs cs : List Char),
    lexLtChars as bs = true → lexLtChars bs cs = true → lexLtChars as cs = true := by
  intro as
  induction as with
  | nil => intro bs cs h h2; cases bs <;> cases cs <;> simp_all [lexLtChars]
  | cons a as ih =>
    intro bs cs h h2
    cases bs with
    | nil => simp [lexLtChars] at h
    | cons b bs =>
      cases cs with
      | nil => simp [lexLtChars] at h2
      | cons c cs =>
        rw [lexLtChars_cons] at h h2 ⊢
        rcases h with h | ⟨hab, h⟩
        · rcases h2 with h2 | ⟨hbc, _⟩
          · exact Or.inl (by omega)
          · exact Or.inl (by omega)
        · rcases h2 with h2 | ⟨hbc, h2⟩
          · exact Or.inl (by omega)
          · exact Or.inr ⟨by omega, ih bs cs h h2⟩

theorem strLexLt_asymm {a b : String} (h : strLexLt a b = true) : strLexLt b a = false :=
  lexLtChars_asymm a.data b.data h

theorem strLe_antisymm {a b : String} (h : strLe a b) (h2 : strLe b a) : a = b :=
  string_ext (lexLtChars_conn a.data b.data h2 h)

theorem strLe_of_not_lt {a b : String} (h : ¬ strLexLt b a = true) : strLe a b :=
  Bool.eq_false_iff.mpr h

theorem strLe_trans {a b c : String} (h : strLe a b) (h2 : strLe b c) : strLe a c := by
  simp only [strLe, strLexLt] at h h2 ⊢
  rw [Bool.eq_false_iff]
  intro hca
  cases hbc : lexLtChars b.data c.data with
  | false =>
    have hbceq : b = c := string_ext (lexLtChars_conn b.data c.data hbc h2)
    subst hbceq
    simp [h] at hca
  | true =>
    have hba := lexLtChars_trans b.data c.data a.data hbc hca
    simp [hba] at h

/-! ## Properties of `sortStrings` -/

theorem insertSorted_perm (x : String) : ∀ (l : List String),
    (insertSorted x l).Perm (x :: l) := by
  intro l
  induction l with
  | nil => simp [insertSorted]
  | cons y ys ih =>
    by_cases hc : strLexLt y x = true
    · simp only [insertSorted, if_pos hc]
      exact (ih.cons y).trans (List.Perm.swap x y ys)
    · simp only [insertSorted, if_neg hc]
      exact List.Perm.refl _

theorem sortStrings_perm : ∀ (l : List String), (sortStrings l).Perm l := by
  intro l
  induction l with
  | nil => simp [sortStrings]
  | cons x xs ih => exact (insertSorted_perm x (sortStrings xs)).trans (ih.cons x)

theorem sorted_insertSorted (x : String) : ∀ (l : List String),
    l.Sorted strLe → (insertSorted x l).Sorted strLe := by
  intro l
  induction l with
  | nil => intro _; simp [insertSorted]
  | cons y ys ih =>
    intro h
    rw [List.sorted_cons] at h
    obtain ⟨hy, hys⟩ := h
    by_cases hc : strLexLt y x = true
    · simp only [insertSorted, if_pos hc]
      rw [List.sorted_cons]
      refine ⟨?_, ih hys⟩
      intro b hb
      rcases List.mem_cons.mp ((insertSorted_perm x ys).mem_iff.mp hb) with rfl | hbys
      · exact strLexLt_asymm hc
      · exact hy b hbys
    · simp only [insertSorted, if_neg hc]
      rw [List.sorted_cons]
      refine ⟨?_, ?_⟩
      · intro b hb
        rcases List.mem_cons.mp hb with rfl | hbys
        · exact strLe_of_not_lt hc
        · exact strLe_trans (strLe_of_not_lt hc) (hy b hbys)
      · rw [List.sorted_cons]; exact ⟨hy, hys⟩

theorem sortStrings_sorted : ∀ (l : List String), (sortStrings l).Sorted strLe := by
  intro l
  induction l with
  | nil => simp [sortStrings]
  | cons x xs ih => exact sorted_insertSorted x (sortStrings xs) ih

theorem sortStrings_eq_of_perm {l₁ l₂ : List String} (h : l₁.Perm l₂) :
    sortStrings l₁ = sortStrings l₂ := by
  haveI : IsAntisymm String strLe := ⟨fun _ _ ha hb => strLe_antisymm ha hb⟩
  exact List.eq_of_perm_of_sorted
    ((sortStrings_perm l₁).trans (h.trans (sortStrings_perm l₂).symm))
    (sortStrings_sorted l₁) (sortStrings_sorted l₂)

/-! ## Association-list lookup under permutation -/

theorem lookup_eq_none_iff {β : Type} : ∀ (l : List (String × β)) (a : String),
    l.lookup a = none ↔ a ∉ l.map Prod.fst := by
  intro l a
  induction l with
  | nil => simp
  | cons kb t ih =>
    obtain ⟨k, b⟩ := kb
    by_cases hak : a = k
    · subst hak; simp [List.lookup_cons]
    · have hbeq : (a == k) = false := beq_eq_false_iff_ne.mpr hak
      simp [List.lookup_cons, hbeq, hak, ih]

theorem lookup_eq_some_iff {β : Type} : ∀ (l : List (String × β)),
    (l.map Prod.fst).Nodup → ∀ (a : String) (b : β),
    (l.lookup a = some b ↔ (a, b) ∈ l) := by
  intro l
  induction l with
  | nil => simp
  | cons kc t ih =>
    obtain ⟨k, c⟩ := kc
    intro nd a b
    rw [List.map_cons, List.nodup_cons] at nd
    obtain ⟨hk, ndt⟩ := nd
    by_cases hak : a = k
    · subst hak
      simp only [List.lookup_cons, beq_iff_eq, if_pos rfl, List.mem_cons]
      constructor
      · rintro h
        exact Or.inl (by simpa using h.symm)
      · rintro (h | h)
        · simp [Prod.ext_iff] at h
          simp [h]
        · exact absurd (List.mem_map_of_mem Prod.fst h) hk
    · have hbeq : (a == k) = false := beq_eq_false_iff_ne.mpr hak
      simp only [List.lookup_cons, hbeq, List.mem_cons]
      rw [ih ndt a b]
      simp [Prod.ext_iff, hak]

theorem lookup_eq_of_perm {β : Type} {l₁ l₂ : List (String × β)} (h : l₁.Perm l₂)
    (nd : (l₁.map Prod.fst).Nodup) (a : String) : l₁.lookup a = l₂.lookup a := by
  have nd₂ : (l₂.map Prod.fst).Nodup := ((h.map Prod.fst).nodup_iff).mp nd
  cases hl : l₁.lookup a with
  | none =>
    rw [lookup_eq_none_iff] at hl
    have : a ∉ l₂.map Prod.fst := fun hm => hl (((h.map Prod.fst).mem_iff).mpr hm)
    exact ((lookup_eq_none_iff l₂ a).mpr this).symm
  | some b =>
    rw [lookup_eq_some_iff l₁ nd a b] at hl
    exact ((lookup_eq_some_iff l₂ nd₂ a b).mpr (h.mem_iff.mp hl)).symm

theorem contains_decide (l : List String) (a : String) :
    l.contains a = decide (a ∈ l) := by
  simp [List.contains_iff_exists_mem_beq]

theorem contains_eq_of_perm {l₁ l₂ : List String} (h : l₁.Perm l₂) (a : String) :
    l₁.contains a = l₂.contains a := by
  rw [contains_decide, contains_decide]
  exact decide_eq_decide.mpr h.mem_iff

/-! ## Filesystem-permutation invariance of the hash component -/

theorem PyFS.isFile_eq_of_perm {fs₁ fs₂ : PyFS} (hf : fs₁.files.Perm fs₂.files)
    (nd : (fs₁.files.map Prod.fst).Nodup) (p : String) :
    fs₁.isFile p = fs₂.isFile p := by
  simp [PyFS.isFile, lookup_eq_of_perm hf nd p]

theorem PyFS.readBytes_eq_of_perm {fs₁ fs₂ : PyFS} (hf : fs₁.files.Perm fs₂.files)
    (nd : (fs₁.files.map Prod.fst).Nodup) (p : String) :
    fs₁.readBytes p = fs₂.readBytes p :=
  lookup_eq_of_perm hf nd p

theorem PyFS.isDir_eq_of_perm {fs₁ fs₂ : PyFS} (hd : fs₁.dirs.Perm fs₂.dirs)
    (p : String) : fs₁.isDir p = fs₂.isDir p :=
  contains_eq_of_perm hd p

theorem PyFS.glob_perm {fs₁ fs₂ : PyFS} (hf : fs₁.files.Perm fs₂.files)
    (hd : fs₁.dirs.Perm fs₂.dirs) (dir : String) :
    (fs₁.glob dir).Perm (fs₂.glob dir) :=
  List.Perm.filter _ ((hf.map Prod.fst).append hd)

theorem Hashes.of_file_eq_of_perm {fs₁ fs₂ : PyFS} (hf : fs₁.files.Perm fs₂.files)
    (nd : (fs₁.files.map Prod.fst).Nodup) (p : String) :
    Hashes.of_file fs₁ p = Hashes.of_file fs₂ p := by
  simp [Hashes.of_file, PyFS.readBytes_eq_of_perm hf nd p]

theorem Hashes.of_folder_eq_of_perm {fs₁ fs₂ : PyFS} (hf : fs₁.files.Perm fs₂.files)
    (hd : fs₁.dirs.Perm fs₂.dirs) (nd : (fs₁.files.map Prod.fst).Nodup)
    (dir : String) : Hashes.of_folder fs₁ dir = Hashes.of_folder fs₂ dir := by
  have hsort : sortStrings (fs₁.glob dir) = sortStrings (fs₂.glob dir) :=
    sortStrings_eq_of_perm (PyFS.glob_perm hf hd dir)
  have hfilter : (sortStrings (fs₂.glob dir)).filter (fun p => fs₁.isFile p)
      = (sortStrings (fs₂.glob dir)).filter (fun p => fs₂.isFile p) :=
    List.filter_congr (fun p _ => PyFS.isFile_eq_of_perm hf nd p)
  have hmap : ∀ l : List String, l.map (fun p => Hashes.of_file fs₁ p)
      = l.map (fun p => Hashes.of_file fs₂ p) :=
    fun l => List.map_congr_left (fun p _ => Hashes.of_file_eq_of_perm hf nd p)
  rw [Hashes.of_folder, Hashes.of_folder, PyFS.isDir_eq_of_perm hd dir,
    hsort, hfilter, hmap]

theorem Hashes.entryHash_eq_of_perm {fs₁ fs₂ : PyFS} (hf : fs₁.files.Perm fs₂.files)
    (hd : fs₁.dirs.Perm fs₂.dirs) (nd : (fs₁.files.map Prod.fst).Nodup)
    (p : String) : Hashes.entryHash fs₁ p = Hashes.entryHash fs₂ p := by
  rw [Hashes.entryHash, Hashes.entryHash, PyFS.isDir_eq_of_perm hd p,
    PyFS.isFile_eq_of_perm hf nd p, Hashes.of_folder_eq_of_perm hf hd nd p]
  by_cases h : fs₂.isDir p = true
  · simp [h]
  · simp [h, Hashes.of_file_eq_of_perm hf nd p]

theorem Hashes.of_paths_eq_of_perm {fs₁ fs₂ : PyFS} (hf : fs₁.files.Perm fs₂.files)
    (hd : fs₁.dirs.Perm fs₂.dirs) (nd : (fs₁.files.map Prod.fst).Nodup)
    (paths : List String) : Hashes.of_paths fs₁ paths = Hashes.of_paths fs₂ paths := by
  rw [Hashes.of_paths, Hashes.of_paths,
    List.filterMap_congr (fun p _ => Hashes.entryHash_eq_of_perm hf hd nd p)]

/-! ## Decimal rendering and zero padding -/

theorem pyStrNatAux_fuel : ∀ (n f₁ f₂ : Nat), n < f₁ → n < f₂ →
    pyStrNatAux f₁ n = pyStrNatAux f₂ n := by
  intro n
  induction n using Nat.strong_induction_on with
  | _ n ih =>
    intro f₁ f₂ h₁ h₂
    match f₁, h₁ with
    | g₁ + 1, _ =>
    match f₂, h₂ with
    | g₂ + 1, _ =>
    by_cases h : n < 10
    · simp [pyStrNatAux, h]
    · have hdiv : n / 10 < n := Nat.div_lt_self (by omega) (by omega)
      simp only [pyStrNatAux, if_neg h]
      rw [ih (n / 10) hdiv g₁ g₂ (by omega) (by omega)]

theorem pyStrNatChars_lt {n : Nat} (h : n < 10) : pyStrNatChars n = [pyDigitChar n] := by
  simp [pyStrNatChars, pyStrNatAux, h]

theorem pyStrNatChars_ge {n : Nat} (h : 10 ≤ n) :
    pyStrNatChars n = pyStrNatChars (n / 10) ++ [pyDigitChar (n % 10)] := by
  have hdiv : n / 10 < n := Nat.div_lt_self (by omega) (by omega)
  have e1 : pyStrNatAux (n + 1) n = pyStrNatAux n (n / 10) ++ [pyDigitChar (n % 10)] := by
    simp only [pyStrNatAux, if_neg (by omega : ¬ n < 10)]
  rw [pyStrNatChars, pyStrNatChars, e1,
    pyStrNatAux_fuel (n / 10) n (n / 10 + 1) (by omega) (by omega)]

theorem lsDigits_length : ∀ (w v : Nat), (lsDigits w v).length = w := by
  intro w
  induction w with
  | zero => intro v; rfl
  | succ w ih => intro v; simp [lsDigits, ih]

theorem lsDigits_zero : ∀ (w : Nat), lsDigits w 0 = List.replicate w '0' := by
  intro w
  induction w with
  | zero => rfl
  | succ w ih => simp [lsDigits, ih, List.replicate_succ, pyDigitChar]

theorem zfill_pyStr_eq_lsDigits : ∀ (w v : Nat), v < 10 ^ (w + 1) →
    (pyZfill (pyStrNat v) (w + 1)).data = (lsDigits (w + 1) v).reverse := by
  intro w
  induction w with
  | zero =>
    intro v hv
    have h10 : v < 10 := by simpa using hv
    simp only [pyZfill, pyStrNat, data_mk, pyStrNatChars_lt h10]
    simp [lsDigits, Nat.mod_eq_of_lt h10]
  | succ w ih =>
    intro v hv
    by_cases h10 : v < 10
    · simp only [pyZfill, pyStrNat, data_mk, pyStrNatChars_lt h10]
      have hd : v / 10 = 0 := Nat.div_eq_of_lt h10
      simp only [lsDigits, hd, Nat.mod_eq_of_lt h10, List.reverse_cons,
        List.length_singleton, Nat.zero_div, Nat.zero_mod, lsDigits_zero,
        List.reverse_replicate]
      rw [show w + 1 + 1 - 1 = w + 1 from rfl, List.replicate_succ',
        List.append_assoc, List.append_assoc]
      rfl
    · have hdivlt : v / 10 < 10 ^ (w + 1) := by
        rw [Nat.div_lt_iff_lt_mul (by omega)]
        calc v < 10 ^ (w + 2) := hv
          _ = 10 ^ (w + 1) * 10 := by rw [pow_succ]
      have ihv := ih (v / 10) hdivlt
      simp only [pyZfill, pyStrNat, data_mk] at ihv
      simp only [pyZfill, pyStrNat, data_mk, pyStrNatChars_ge (show 10 ≤ v by omega)]
      rw [lsDigits, List.reverse_cons, ← ihv]
      have hL : (pyStrNatChars (v / 10) ++ [pyDigitChar (v % 10)]).length
          = (pyStrNatChars (v / 10)).length + 1 := by simp
      rw [hL, Nat.succ_sub_succ, List.append_assoc]


theorem pyDigitChar_mono : ∀ d, d < 10 → ∀ e, e < 10 → d < e →
    (pyDigitChar d).toNat < (pyDigitChar e).toNat := by decide

theorem lexLt_append_right : ∀ (A B : List Char) (a b : Char), A.length = B.length →
    lexLtChars A B = true → lexLtChars (A ++ [a]) (B ++ [b]) = true := by
  intro A
  induction A with
  | nil =>
    intro B a b hl h
    cases B with
    | nil => simp [lexLtChars] at h
    | cons y B => simp at hl
  | cons x A ih =>
    intro B a b hl h
    cases B with
    | nil => simp at hl
    | cons y B =>
      rw [lexLtChars_cons] at h
      rw [List.cons_append, List.cons_append, lexLtChars_cons]
      rcases h with h | ⟨he, h⟩
      · exact Or.inl h
      · exact Or.inr ⟨he, ih B a b (by simpa using hl) h⟩

theorem lexLt_append_last : ∀ (A : List Char) (a b : Char), a.toNat < b.toNat →
    lexLtChars (A ++ [a]) (A ++ [b]) = true := by
  intro A
  induction A with
  | nil => intro a b h; rw [List.nil_append, List.nil_append, lexLtChars_cons]; exact Or.inl h
  | cons x A ih =>
    intro a b h
    rw [List.cons_append, List.cons_append, lexLtChars_cons]
    exact Or.inr ⟨rfl, ih a b h⟩

theorem lex_lsDigits : ∀ (w m n : Nat), m < n → n < 10 ^ w →
    lexLtChars (lsDigits w m).reverse (lsDigits w n).reverse = true := by
  intro w
  induction w with
  | zero => intro m n hmn hn; simp at hn; omega
  | succ w ih =>
    intro m n hmn hn
    rw [lsDigits, lsDigits, List.reverse_cons, List.reverse_cons]
    by_cases hq : m / 10 = n / 10
    · rw [hq]
      exact lexLt_append_last _ _ _
        (pyDigitChar_mono (m % 10) (by omega) (n % 10) (by omega) (by omega))
    · have hql : m / 10 < n / 10 := by omega
      have hnd : n / 10 < 10 ^ w := by
        rw [Nat.div_lt_iff_lt_mul (by omega)]
        rw [← pow_succ]
        exact hn
      refine lexLt_append_right _ _ _ _ (by simp [lsDigits_length]) (ih (m / 10) (n / 10) hql hnd)

/-! ## Claim C5: glob inclusion rule -/

/-- C5: for every relative path (represented by its pattern matcher `m`) and
every pair of pattern lists, `do_we_include` returns `True` iff both lists
are empty, or no exclude pattern matches and (the include list is empty or
some include pattern matches); in particular an exclude match always wins
and with both lists empty every path is included. -/
theorem claim_c5_do_we_include_iff (m : String → Bool) (inc exc : List String) :
    do_we_include m inc exc = true ↔
      ((inc = [] ∧ exc = []) ∨
        ((∀ p ∈ exc, m p = false) ∧ (inc = [] ∨ ∃ p ∈ inc, m p = true))) := by
  rcases inc with _ | ⟨i, is⟩ <;> rcases exc with _ | ⟨e, es⟩
  · simp [do_we_include]
  · simp [do_we_include, List.any_eq_false]
  · simp [do_we_include, List.any_eq_true]
  · have hred : do_we_include m (i :: is) (e :: es)
        = (if (e :: es).any m then false else (i :: is).any m) := by
      simp [do_we_include]
    rw [hred]
    cases hexc : (e :: es).any m with
    | true =>
      have hex := List.any_eq_true.mp hexc
      simp only [hexc, if_true, Bool.false_eq_true, false_iff]
      rintro (⟨hcons, _⟩ | ⟨hall, _⟩)
      · cases hcons
      · obtain ⟨p, hp, hmp⟩ := hex
        have := hall p hp
        rw [hmp] at this
        cases this
    | false =>
      have hall : ∀ p ∈ e :: es, m p = false := by
        intro p hp
        exact Bool.eq_false_iff.mpr (List.any_eq_false.mp hexc p hp)
      simp only [hexc, Bool.false_eq_true, if_false, List.any_eq_true]
      constructor
      · intro h
        exact Or.inr ⟨hall, Or.inr h⟩
      · rintro (⟨hcons, _⟩ | ⟨_, hin⟩)
        · cases hcons
        · rcases hin with hin | hin
          · cases hin
          · exact hin

/-- Exclusion dominates `do_we_include`: when some exclude pattern matches,
the result is `False` in every branch. -/
theorem do_we_include_eq_false_of_excluded (m : String → Bool) (inc exc : List String)
    (hp : ∃ p ∈ exc, m p = true) : do_we_include m inc exc = false := by
  have hexc : exc.any m = true := List.any_eq_true.mpr hp
  rcases exc with _ | ⟨e, es⟩
  · simp at hexc
  · rcases inc with _ | ⟨i, is⟩
    · simp [do_we_include, hexc]
    · simp [do_we_include, hexc]

/-! ## Claim C10: pathlib source build always excludes bytecode -/

/-- C10: `build_source_python_lib` appends `__pycache__`, `*.pyc`, `*.pyo` to
the caller's exclude list, so a file matching any of them is never copied,
whatever the caller passed (in particular with no include and no exclude
patterns), and the effective exclude list is never empty, so the
both-lists-empty branch of `do_we_include` is never taken through this entry
point. -/
theorem claim_c10_bytecode_never_copied :
    (∀ exc, build_source_python_lib_exclude exc ≠ [] ∧
      ("__pycache__") ∈ build_source_python_lib_exclude exc ∧
      ("*.pyc") ∈ build_source_python_lib_exclude exc ∧
      ("*.pyo") ∈ build_source_python_lib_exclude exc) ∧
    (∀ (matcherOf : String → String → Bool) (sourceFiles : List String)
      (inc exc : Option (List String)) (rp : String),
      (matcherOf rp ("__pycache__") = true ∨ matcherOf rp ("*.pyc") = true ∨
        matcherOf rp ("*.pyo") = true) →
      rp ∉ build_source_python_lib_copies matcherOf sourceFiles inc exc) := by
  constructor
  · intro exc
    refine ⟨?_, ?_, ?_, ?_⟩ <;> simp [build_source_python_lib_exclude]
  · intro matcherOf sourceFiles inc exc rp hm hmem
    rw [build_source_python_lib_copies, List.mem_filter] at hmem
    have hfalse : do_we_include (matcherOf rp) (resolvePatterns inc)
        (build_source_python_lib_exclude exc) = false := by
      apply do_we_include_eq_false_of_excluded
      rcases hm with h | h | h
      · exact ⟨"__pycache__", by simp [build_source_python_lib_exclude], h⟩
      · exact ⟨"*.pyc", by simp [build_source_python_lib_exclude], h⟩
      · exact ⟨"*.pyo", by simp [build_source_python_lib_exclude], h⟩
    rw [hfalse] at hmem
    exact absurd hmem.2 (by simp)

/-- Witness for C10 at a concrete matcher and file list. -/
theorem claim_c10_witness :
    ((fun rp pat => rp == pat) ("__pycache__") ("__pycache__") = true) ∧
    ("__pycache__") ∉ build_source_python_lib_copies (fun rp pat => rp == pat)
      ["__pycache__", "mod.py"] none none :=
  ⟨by decide, claim_c10_bytecode_never_copied.2 (fun rp pat => rp == pat)
    ["__pycache__", "mod.py"] none none ("__pycache__") (Or.inl (by decide))⟩

/-! ## Claim C6: idempotent permission grant/revoke -/

/-- C6: `grant_layer_permission` attempts the add once; on a
`ResourceConflictException` it removes the existing statement and retries the
add exactly once, propagating whatever the retry returns (including a second
conflict); any other error propagates without retry (and a failure of the
remove itself propagates with no retried add).  `revoke_layer_permission`
turns a `ResourceNotFoundException` into the explicit `none` result and
propagates any other error unchanged. -/
theorem claim_c6_grant_revoke_error_handling :
    (∀ (o : GrantApiOracle) (r : String), o.addAttempt1 = .ok r →
      grant_layer_permission o = (.ok r, 1, false)) ∧
    (∀ (o : GrantApiOracle) (e : AwsClientError), o.addAttempt1 = .error e →
      e.code ≠ "ResourceConflictException" →
      grant_layer_permission o = (.error e, 1, false)) ∧
    (∀ (o : GrantApiOracle) (e : AwsClientError) (r : String),
      o.addAttempt1 = .error e → e.code = "ResourceConflictException" →
      o.removeAttempt = .ok r →
      grant_layer_permission o = (o.addAttempt2, 2, true)) ∧
    (∀ (o : GrantApiOracle) (e e2 : AwsClientError),
      o.addAttempt1 = .error e → e.code = "ResourceConflictException" →
      o.removeAttempt = .error e2 →
      grant_layer_permission o = (.error e2, 1, true)) ∧
    (∀ r : String, revoke_layer_permission (.ok r) = .ok (some r)) ∧
    (∀ e : AwsClientError, e.code = "ResourceNotFoundException" →
      revoke_layer_permission (.error e) = .ok none) ∧
    (∀ e : AwsClientError, e.code ≠ "ResourceNotFoundException" →
      revoke_layer_permission (.error e) = .error e) := by
  refine ⟨?_, ?_, ?_, ?_, ?_, ?_, ?_⟩
  · intro o r h; simp [grant_layer_permission, h]
  · intro o e h hc; simp [grant_layer_permission, h, hc]
  · intro o e r h hc hr; simp [grant_layer_permission, h, hc, hr]
  · intro o e e2 h hc hr; simp [grant_layer_permission, h, hc, hr]
  · intro r; simp [revoke_layer_permission]
  · intro e hc; simp [revoke_layer_permission, hc]
  · intro e hc; simp [revoke_layer_permission, hc]

/-- Witness for C6: a first-attempt conflict is cleaned up and the retried
add's outcome (here a second conflict) is propagated. -/
theorem claim_c6_witness :
    (Except.error ⟨"ResourceConflictException"⟩ :
        Except AwsClientError String) = .error ⟨"ResourceConflictException"⟩ ∧
    grant_layer_permission
      ⟨.error ⟨"ResourceConflictException"⟩, .ok ("removed"),
        .error ⟨"ResourceConflictException"⟩⟩
      = (.error ⟨"ResourceConflictException"⟩, 2, true) := by
  refine ⟨rfl, ?_⟩
  have h := claim_c6_grant_revoke_error_handling.2.2.1
    ⟨.error ⟨"ResourceConflictException"⟩, .ok ("removed"),
      .error ⟨"ResourceConflictException"⟩⟩
    ⟨"ResourceConflictException"⟩ ("removed") rfl rfl rfl
  simpa using h

/-! ## Claim C9: the Principal field sent is the session account id -/

/-- C9: whatever `principal` the caller supplies, the request built by
`grant_layer_permission` carries `bsm.aws_account_id` in its `Principal`
field; the `principal` argument only enters the derived statement id, which
is the deterministic function `build_statement_id` of action, principal and
organization id. -/
theorem claim_c9_principal_is_account_id :
    ∀ (aws_account_id layer_name : String) (version_number : Nat)
      (principal : String) (statement_id : Option String) (action : String)
      (organization_id revision_id : Option String)
      (req : AddLayerVersionPermissionRequest),
      grant_layer_permission_request aws_account_id layer_name version_number
        principal statement_id action organization_id revision_id = some req →
      req.principal = aws_account_id ∧
      (statement_id = none →
        build_statement_id action principal organization_id = some req.statementId) := by
  intro aws_account_id layer_name version_number principal statement_id action
    organization_id revision_id req hreq
  cases statement_id with
  | some sid =>
    simp only [grant_layer_permission_request, Option.map_some] at hreq
    cases hreq
    exact ⟨rfl, by intro h; cases h⟩
  | none =>
    simp only [grant_layer_permission_request] at hreq
    cases hb : build_statement_id action principal organization_id with
    | none => rw [hb] at hreq; cases hreq
    | some sid =>
      rw [hb] at hreq
      cases hreq
      exact ⟨rfl, fun _ => rfl⟩

/-- Witness for C9 at concrete arguments. -/
theorem claim_c9_witness :
    grant_layer_permission_request ("111122223333") ("my-layer") 1 ("444455556666")
        none ("lambda:GetLayerVersion") none none
      = some ⟨"my-layer", 1, "principal-444455556666-action-GetLayerVersion",
          "111122223333", "lambda:GetLayerVersion", none, none⟩ ∧
    ("principal-444455556666-action-GetLayerVersion" ≠ ("111122223333")) ∧
    (⟨"my-layer", 1, "principal-444455556666-action-GetLayerVersion",
        "111122223333", "lambda:GetLayerVersion", none, none⟩ :
        AddLayerVersionPermissionRequest).principal = "111122223333" := by
  refine ⟨by decide, by decide, ?_⟩
  exact (claim_c9_principal_is_account_id ("111122223333") ("my-layer") 1
    ("444455556666") none ("lambda:GetLayerVersion") none none _ (by decide)).1

/-! ## Claim C8: configuration errors -/

/-- C8: derived-path requests fail with a configuration error exactly when
the required root is unset (`dir_build` for local paths, `s3dir_lambda` for
remote paths), and the `build_source_artifacts` flag validation fails exactly
when the number of `True` flags differs from one; path derivation is pure
(every accessor is a total function of the context alone). -/
theorem claim_c8_configuration_errors :
    (∀ (ctx : BuildContext) (rest : List String),
      (∃ e, ctx.requireLocal rest = .error e) ↔ ctx.dir_build = none) ∧
    (∀ (ctx : BuildContext) (rest : List String),
      (∃ e, ctx.requireRemote rest = .error e) ↔ ctx.s3dir_lambda = none) ∧
    (∀ ctx : BuildContext, (∃ e, ctx.dir_python = .error e) ↔ ctx.dir_build = none) ∧
    (∀ (ctx : BuildContext) (v : Nat),
      (∃ e, ctx.get_s3path_layer_zip v = .error e) ↔ ctx.s3dir_lambda = none) ∧
    (∀ lst : List Bool,
      (∃ e, ensure_exact_one_true lst = .error e) ↔ lst.countP id ≠ 1) ∧
    (∀ use_pip use_build use_poetry use_pathlib : Bool,
      (∃ e, build_source_artifacts_validate use_pip use_build use_poetry
        use_pathlib = .error e) ↔
      ([use_pip, use_build, use_poetry, use_pathlib].countP id ≠ 1)) := by
  have hlocal : ∀ (ctx : BuildContext) (rest : List String),
      (∃ e, ctx.requireLocal rest = .error e) ↔ ctx.dir_build = none := by
    intro ctx rest
    cases h : ctx.dir_build <;> simp [BuildContext.requireLocal, h]
  have hremote : ∀ (ctx : BuildContext) (rest : List String),
      (∃ e, ctx.requireRemote rest = .error e) ↔ ctx.s3dir_lambda = none := by
    intro ctx rest
    cases h : ctx.s3dir_lambda <;> simp [BuildContext.requireRemote, h]
  have hone : ∀ lst : List Bool,
      (∃ e, ensure_exact_one_true lst = .error e) ↔ lst.countP id ≠ 1 := by
    intro lst
    by_cases h : lst.countP id = 1 <;> simp [ensure_exact_one_true, h]
  exact ⟨hlocal, hremote, fun ctx => hlocal ctx ["python"],
    fun ctx v => hremote ctx ["layer", versionSegment v, "layer.zip"],
    hone, fun a b c d => hone [a, b, c, d]⟩

/-! ## Claim C1: idempotency decision and the deploy sentinel -/

/-- A successful `publish_layer` reports the published version and the
version-keyed promote destinations. -/
theorem publish_layer_ok_fields {s3 : S3State} {s3root : S3Key} {v : Nat}
    {arn : String} {r : PublishResult} (h : publish_layer s3 s3root v arn = .ok r) :
    r.layer_version = v ∧ r.layer_version_arn = arn ∧
    r.s3path_layer_zip = s3pathLayerZip s3root v ∧
    r.s3path_layer_requirements_txt = s3pathLayerRequirementsTxt s3root v := by
  rw [publish_layer] at h
  cases h1 : copyNoOverwrite s3 (s3pathTmpLayerZip s3root) (s3pathLayerZip s3root v) with
  | error e => rw [h1] at h; exact Except.noConfusion h
  | ok s1 =>
    rw [h1] at h
    replace h : (do
        let s2 ← copyNoOverwrite s1 (s3pathTmpLayerRequirementsTxt s3root)
          (s3pathLayerRequirementsTxt s3root v)
        pure (⟨v, arn, s3pathLayerZip s3root v,
          s3pathLayerRequirementsTxt s3root v, s2⟩ : PublishResult)) = Except.ok r := h
    cases h2 : copyNoOverwrite s1 (s3pathTmpLayerRequirementsTxt s3root)
        (s3pathLayerRequirementsTxt s3root v) with
    | error e => rw [h2] at h; exact Except.noConfusion h
    | ok s2 =>
      rw [h2] at h
      injection h with h
      rw [← h]
      exact ⟨rfl, rfl, rfl, rfl⟩

/-- C1: `is_current_layer_the_same_as_latest_one` is `True` iff a latest
version exists, its stored requirements object exists remotely and the local
requirements content equals the remote content; `deploy_layer` returns the
`None` sentinel exactly when this decision is `True`, and otherwise proceeds
to build, upload and publish, producing a `LayerDeployment` record (unless
the promote step raises). -/
theorem claim_c1_idempotency_decision (env : LayerEnv) (s3root : S3Key) :
    (is_current_layer_the_same_as_latest_one env.s3 (get_latest_layer_version env)
        env.localRequirements s3root = true ↔
      (∃ v, get_latest_layer_version env = some v ∧
        ∃ r, env.s3 (s3pathLayerRequirementsTxt s3root v) = some r ∧
          env.localRequirements = r)) ∧
    ((∃ s, deploy_layer env s3root = .ok (none, s)) ↔
      is_current_layer_the_same_as_latest_one env.s3 (get_latest_layer_version env)
        env.localRequirements s3root = true) ∧
    (is_current_layer_the_same_as_latest_one env.s3 (get_latest_layer_version env)
        env.localRequirements s3root = false →
      (∃ err, deploy_layer env s3root = .error err) ∨
      (∃ d s, deploy_layer env s3root = .ok (some d, s) ∧
        d.layer_sha256 = build_layer_artifacts_sha256 env.localRequirements ∧
        d.layer_version = env.publishedVersion)) := by
  have hstale : is_current_layer_the_same_as_latest_one env.s3
        (get_latest_layer_version env) env.localRequirements s3root = false →
      (∃ err, deploy_layer env s3root = .error err) ∨
      (∃ d s, deploy_layer env s3root = .ok (some d, s) ∧
        d.layer_sha256 = build_layer_artifacts_sha256 env.localRequirements ∧
        d.layer_version = env.publishedVersion) := by
    intro hs
    simp only [deploy_layer, hs, Bool.false_eq_true, if_false]
    cases hp : publish_layer
        (upload_layer_artifacts env.s3 s3root env.builtZipContent
          env.localRequirements).1 s3root env.publishedVersion
        env.publishedArn with
    | error e => exact Or.inl ⟨e, rfl⟩
    | ok r =>
      have hv : r.layer_version = env.publishedVersion :=
        (publish_layer_ok_fields hp).1
      exact Or.inr ⟨_, r.s3, rfl, rfl, hv⟩
  refine ⟨?_, ?_, hstale⟩
  · cases hv : get_latest_layer_version env with
    | none => simp [is_current_layer_the_same_as_latest_one, hv]
    | some v =>
      cases hr : env.s3 (s3pathLayerRequirementsTxt s3root v) with
      | none => simp [is_current_layer_the_same_as_latest_one, hv, hr]
      | some r =>
        simp [is_current_layer_the_same_as_latest_one, hv, hr, beq_iff_eq]
        exact eq_comm
  · cases hs : is_current_layer_the_same_as_latest_one env.s3
        (get_latest_layer_version env) env.localRequirements s3root with
    | true =>
      have hd : deploy_layer env s3root = .ok (none, env.s3) := by
        simp only [deploy_layer, hs, if_true]
        rfl
      exact iff_of_true ⟨env.s3, hd⟩ rfl
    | false =>
      simp only [Bool.false_eq_true, iff_false]
      rintro ⟨s, hok⟩
      rcases hstale hs with ⟨err, hd⟩ | ⟨d, s2, hd, -, -⟩
      · rw [hd] at hok; exact Except.noConfusion hok
      · rw [hd] at hok; simp at hok

/-- Witness for C1: with no layer version published yet the decision is
stale, and deploying produces either a promote failure or a deployment
record. -/
theorem claim_c1_witness :
    (is_current_layer_the_same_as_latest_one
        (fun _ => none) (get_latest_layer_version
          ⟨fun _ => none, none, 1, "arn:1", "requests==2.0", "zipbytes"⟩)
        ("requests==2.0") [] = false) ∧
    ((∃ err, deploy_layer ⟨fun _ => none, none, 1, "arn:1", "requests==2.0",
        "zipbytes"⟩ [] = .error err) ∨
      (∃ d s, deploy_layer ⟨fun _ => none, none, 1, "arn:1", "requests==2.0",
        "zipbytes"⟩ [] = .ok (some d, s) ∧
        d.layer_sha256 = build_layer_artifacts_sha256 ("requests==2.0") ∧
        d.layer_version = 1)) :=
  ⟨rfl, (claim_c1_idempotency_decision
    ⟨fun _ => none, none, 1, "arn:1", "requests==2.0", "zipbytes"⟩ []).2.2 rfl⟩

/-! ## Claim C2: promote is no-overwrite and version directories are immutable -/

theorem copyNoOverwrite_preserves {s : S3State} {src dst : S3Key} {s2 : S3State}
    (h : copyNoOverwrite s src dst = .ok s2) {k : S3Key} {c : String}
    (hk : s k = some c) : s2 k = some c := by
  rw [copyNoOverwrite] at h
  cases hdst : s dst with
  | some cc => rw [hdst] at h; exact Except.noConfusion h
  | none =>
    rw [hdst] at h
    cases hsrc : s src with
    | none => rw [hsrc] at h; exact Except.noConfusion h
    | some cc =>
      rw [hsrc] at h
      injection h with h
      have hne : k ≠ dst := by
        intro he
        rw [he, hdst] at hk
        exact Option.noConfusion hk
      rw [← h]
      show (if k = dst then some cc else s k) = some c
      rw [if_neg hne, hk]

theorem copyNoOverwrite_error_state {s : S3State} {src dst : S3Key}
    {e : PromoteError} {st : S3State}
    (h : copyNoOverwrite s src dst = .error (e, st)) : st = s := by
  rw [copyNoOverwrite] at h
  cases hdst : s dst with
  | some cc => rw [hdst] at h; injection h with h; exact (congrArg Prod.snd h).symm
  | none =>
    rw [hdst] at h
    cases hsrc : s src with
    | none => rw [hsrc] at h; injection h with h; exact (congrArg Prod.snd h).symm
    | some cc => rw [hsrc] at h; exact Except.noConfusion h

theorem copyNoOverwrite_rejects {s : S3State} {src dst : S3Key}
    (h : (s dst).isSome) : ∀ s2, copyNoOverwrite s src dst ≠ .ok s2 := by
  intro s2 hok
  rw [copyNoOverwrite] at hok
  cases hdst : s dst with
  | some cc => rw [hdst] at hok; exact Except.noConfusion hok
  | none => rw [hdst] at h; exact Bool.noConfusion h

/-- A successful `publish_layer` keeps every object that already existed. -/
theorem publish_layer_preserves {s3 : S3State} {s3root : S3Key} {v : Nat}
    {arn : String} {r : PublishResult} (h : publish_layer s3 s3root v arn = .ok r)
    {k : S3Key} {c : String} (hk : s3 k = some c) : r.s3 k = some c := by
  rw [publish_layer] at h
  cases h1 : copyNoOverwrite s3 (s3pathTmpLayerZip s3root) (s3pathLayerZip s3root v) with
  | error e => rw [h1] at h; exact Except.noConfusion h
  | ok s1 =>
    rw [h1] at h
    replace h : (do
        let s2 ← copyNoOverwrite s1 (s3pathTmpLayerRequirementsTxt s3root)
          (s3pathLayerRequirementsTxt s3root v)
        pure (⟨v, arn, s3pathLayerZip s3root v,
          s3pathLayerRequirementsTxt s3root v, s2⟩ : PublishResult)) = Except.ok r := h
    cases h2 : copyNoOverwrite s1 (s3pathTmpLayerRequirementsTxt s3root)
        (s3pathLayerRequirementsTxt s3root v) with
    | error e => rw [h2] at h; exact Except.noConfusion h
    | ok s2 =>
      rw [h2] at h
      injection h with h
      rw [← h]
      exact copyNoOverwrite_preserves h2 (copyNoOverwrite_preserves h1 hk)

/-- A failed `publish_layer` also keeps every object that already existed (in
the state carried by the raised error). -/
theorem publish_layer_error_preserves {s3 : S3State} {s3root : S3Key} {v : Nat}
    {arn : String} {e : PromoteError} {st : S3State}
    (h : publish_layer s3 s3root v arn = .error (e, st))
    {k : S3Key} {c : String} (hk : s3 k = some c) : st k = some c := by
  rw [publish_layer] at h
  cases h1 : copyNoOverwrite s3 (s3pathTmpLayerZip s3root) (s3pathLayerZip s3root v) with
  | error e1 =>
    rw [h1] at h
    injection h with h
    obtain ⟨e1, st1⟩ := e1
    cases h
    rw [copyNoOverwrite_error_state h1]
    exact hk
  | ok s1 =>
    rw [h1] at h
    replace h : (do
        let s2 ← copyNoOverwrite s1 (s3pathTmpLayerRequirementsTxt s3root)
          (s3pathLayerRequirementsTxt s3root v)
        pure (⟨v, arn, s3pathLayerZip s3root v,
          s3pathLayerRequirementsTxt s3root v, s2⟩ : PublishResult)) = Except.error (e, st) := h
    cases h2 : copyNoOverwrite s1 (s3pathTmpLayerRequirementsTxt s3root)
        (s3pathLayerRequirementsTxt s3root v) with
    | error e2 =>
      rw [h2] at h
      injection h with h
      obtain ⟨e2, st2⟩ := e2
      cases h
      rw [copyNoOverwrite_error_state h2]
      exact copyNoOverwrite_preserves h1 hk
    | ok s2 => rw [h2] at h; exact Except.noConfusion h

/-- The staging keys written by `upload_layer_artifacts` are never
version-keyed permanent paths. -/
theorem upload_preserves_version_keys (s3 : S3State) (s3root : S3Key)
    (zipContent reqContent : String) {k : S3Key}
    (hver : ∃ v, k = s3pathLayerZip s3root v ∨ k = s3pathLayerRequirementsTxt s3root v) :
    (upload_layer_artifacts s3 s3root zipContent reqContent).1 k = s3 k := by
  obtain ⟨v, hk | hk⟩ := hver <;>
  · subst hk
    show (if _ = s3pathTmpLayerRequirementsTxt s3root then _
      else if _ = s3pathTmpLayerZip s3root then _ else _) = _
    rw [if_neg, if_neg]
    · intro he
      have := List.append_cancel_left (he.symm)
      simp at this
    · intro he
      have := List.append_cancel_left (he.symm)
      simp at this

/-- C2: both promote copies run with `overwrite=False`: a successful
`publish_layer` never changes an existing object, promoting onto an
already-existing version path is rejected by the storage layer, and across a
whole `deploy_layer` run (successful or aborted) an existing version-keyed
object keeps its content. -/
theorem claim_c2_promote_immutability :
    (∀ (s3 : S3State) (s3root : S3Key) (v : Nat) (arn : String) (k : S3Key)
      (c : String), s3 k = some c →
      ∀ r, publish_layer s3 s3root v arn = .ok r → r.s3 k = some c) ∧
    (∀ (s3 : S3State) (s3root : S3Key) (v : Nat) (arn : String),
      ((s3 (s3pathLayerZip s3root v)).isSome ∨
        (s3 (s3pathLayerRequirementsTxt s3root v)).isSome) →
      ∀ r, publish_layer s3 s3root v arn ≠ .ok r) ∧
    (∀ (env : LayerEnv) (s3root : S3Key) (k : S3Key) (c : String),
      (∃ v, k = s3pathLayerZip s3root v ∨ k = s3pathLayerRequirementsTxt s3root v) →
      env.s3 k = some c →
      (∀ d s, deploy_layer env s3root = .ok (d, s) → s k = some c) ∧
      (∀ e s, deploy_layer env s3root = .error (e, s) → s k = some c)) := by
  refine ⟨?_, ?_, ?_⟩
  · intro s3 s3root v arn k c hk r hok
    exact publish_layer_preserves hok hk
  · intro s3 s3root v arn hsome r hok
    rw [publish_layer] at hok
    cases h1 : copyNoOverwrite s3 (s3pathTmpLayerZip s3root)
        (s3pathLayerZip s3root v) with
    | error e => rw [h1] at hok; exact Except.noConfusion hok
    | ok s1 =>
      rw [h1] at hok
      replace hok : (do
          let s2 ← copyNoOverwrite s1 (s3pathTmpLayerRequirementsTxt s3root)
            (s3pathLayerRequirementsTxt s3root v)
          pure (⟨v, arn, s3pathLayerZip s3root v,
            s3pathLayerRequirementsTxt s3root v, s2⟩ : PublishResult)) = Except.ok r := hok
      rcases hsome with hz | hq
      · obtain ⟨cz, hcz⟩ := Option.isSome_iff_exists.mp hz
        exact copyNoOverwrite_rejects (by rw [hcz]; rfl) s1 h1
      · obtain ⟨cq, hcq⟩ := Option.isSome_iff_exists.mp hq
        have hs1q : s1 (s3pathLayerRequirementsTxt s3root v) = some cq :=
          copyNoOverwrite_preserves h1 hcq
        cases h2 : copyNoOverwrite s1 (s3pathTmpLayerRequirementsTxt s3root)
            (s3pathLayerRequirementsTxt s3root v) with
        | error e => rw [h2] at hok; exact Except.noConfusion hok
        | ok s2 => exact copyNoOverwrite_rejects (by rw [hs1q]; rfl) s2 h2
  · intro env s3root k c hver hk
    cases hs : is_current_layer_the_same_as_latest_one env.s3
        (get_latest_layer_version env) env.localRequirements s3root with
    | true =>
      have hd : deploy_layer env s3root = .ok (none, env.s3) := by
        simp only [deploy_layer, hs, if_true]
        rfl
      constructor
      · intro d s hok
        rw [hd] at hok
        injection hok with hok
        injection hok with h1 h2
        rw [← h2]
        exact hk
      · intro e s herr
        rw [hd] at herr
        exact Except.noConfusion herr
    | false =>
      have hup : (upload_layer_artifacts env.s3 s3root env.builtZipContent
          env.localRequirements).1 k = some c := by
        rw [upload_preserves_version_keys _ _ _ _ hver]
        exact hk
      have hdep : deploy_layer env s3root = (do
          let r ← publish_layer
            (upload_layer_artifacts env.s3 s3root env.builtZipContent
              env.localRequirements).1 s3root env.publishedVersion env.publishedArn
          pure (some (⟨build_layer_artifacts_sha256 env.localRequirements,
            r.layer_version, r.layer_version_arn, r.s3path_layer_zip,
            r.s3path_layer_requirements_txt⟩ : LayerDeployment), r.s3)) := by
        simp only [deploy_layer, hs, Bool.false_eq_true, if_false]
      cases hp : publish_layer
          (upload_layer_artifacts env.s3 s3root env.builtZipContent
            env.localRequirements).1 s3root env.publishedVersion env.publishedArn with
      | error epair =>
        rw [hp] at hdep
        obtain ⟨e0, st0⟩ := epair
        constructor
        · intro d s hok
          rw [hdep] at hok
          exact Except.noConfusion hok
        · intro e s herr
          rw [hdep] at herr
          injection herr with herr
          injection herr with h1 h2
          rw [← h2]
          exact publish_layer_error_preserves hp hup
      | ok r =>
        rw [hp] at hdep
        constructor
        · intro d s hok
          rw [hdep] at hok
          injection hok with hok
          injection hok with h1 h2
          rw [← h2]
          exact publish_layer_preserves hp hup
        · intro e s herr
          rw [hdep] at herr
          exact Except.noConfusion herr

/-- Witness for C2: with version `000001` already present, a full deploy run
(which here must abort at the promote step) leaves the stored object intact. -/
theorem claim_c2_witness :
    (∃ v, s3pathLayerZip ["r"] 1 = s3pathLayerZip ["r"] v ∨
      s3pathLayerZip ["r"] 1 = s3pathLayerRequirementsTxt ["r"] v) ∧
    c2WitnessEnv.s3 (s3pathLayerZip ["r"] 1) = some ("old") ∧
    ((∀ d s, deploy_layer c2WitnessEnv ["r"] = .ok (d, s) →
        s (s3pathLayerZip ["r"] 1) = some ("old")) ∧
      (∀ e s, deploy_layer c2WitnessEnv ["r"] = .error (e, s) →
        s (s3pathLayerZip ["r"] 1) = some ("old"))) :=
  ⟨⟨1, Or.inl rfl⟩, by decide,
    claim_c2_promote_immutability.2.2 c2WitnessEnv ["r"] (s3pathLayerZip ["r"] 1)
      ("old") ⟨1, Or.inl rfl⟩ (by decide)⟩

/-! ## Claim C7: zero-padded version path segments -/

/-- C7 as stated is false beyond six digits: versions `999999 < 1000000`
yield segments `999999` and `1000000`, and the latter is lexicographically
smaller, not larger. -/
theorem claim_c7_counterexample :
    999999 < 1000000 ∧
    versionSegment 999999 = "999999" ∧
    versionSegment 1000000 = "1000000" ∧
    strLexLt (versionSegment 999999) (versionSegment 1000000) = false ∧
    strLexLt (versionSegment 1000000) (versionSegment 999999) = true := by
  refine ⟨by decide, by decide, by decide, by decide, by decide⟩

/-- C7 (amended): the derived path segment is `str(version).zfill(6)` (for
example version 1 maps to `{root}/layer/000001/layer.zip`), and for versions
below `10^6` — while the six-digit width suffices — numeric order and
lexicographic order of the segments coincide. -/
theorem claim_c7_zero_padded_segments :
    (∀ v : Nat, versionSegment v = pyZfill (pyStrNat v) ZFILL) ∧
    versionSegment 1 = "000001" ∧
    (∀ (ctx : BuildContext) (root : S3Key) (v : Nat), ctx.s3dir_lambda = some root →
      ctx.get_s3path_layer_zip v = .ok (root ++ ["layer", versionSegment v, "layer.zip"])) ∧
    (∀ m n : Nat, m < n → n < 10 ^ 6 →
      strLexLt (versionSegment m) (versionSegment n) = true) := by
  refine ⟨fun _ => rfl, by decide, ?_, ?_⟩
  · intro ctx root v hroot
    simp [BuildContext.get_s3path_layer_zip, BuildContext.requireRemote, hroot,
      versionSegment]
  · intro m n hmn hn
    have hm : m < 10 ^ 6 := lt_trans hmn hn
    show lexLtChars (versionSegment m).data (versionSegment n).data = true
    have hdm : (versionSegment m).data = (lsDigits 6 m).reverse :=
      zfill_pyStr_eq_lsDigits 5 m hm
    have hdn : (versionSegment n).data = (lsDigits 6 n).reverse :=
      zfill_pyStr_eq_lsDigits 5 n hn
    rw [hdm, hdn]
    exact lex_lsDigits 6 m n hmn hn

/-- Witness for C7 (amended) at versions 1 and 2 and at a concrete context. -/
theorem claim_c7_witness :
    ((BuildContext.mk none (some ["r"])).s3dir_lambda = some ["r"] ∧
      (BuildContext.mk none (some ["r"])).get_s3path_layer_zip 1
        = .ok (["r"] ++ ["layer", versionSegment 1, "layer.zip"])) ∧
    (1 < 2 ∧ (2 : Nat) < 10 ^ 6 ∧ strLexLt (versionSegment 1) (versionSegment 2) = true) :=
  ⟨⟨rfl, claim_c7_zero_padded_segments.2.2.1 (BuildContext.mk none (some ["r"]))
      ["r"] 1 rfl⟩,
    by decide, by decide,
    claim_c7_zero_padded_segments.2.2.2 1 2 (by decide) (by decide)⟩

/-! ## Claim C3: the content-hash component -/

/-- C3: `Hashes.of_paths` hashes the concatenation, in caller order, of each
entry's hash; a directory entry's hash is the hash of the concatenation of
the per-file hashes of its contained files in sorted-by-path order, and is
therefore invariant under the filesystem's enumeration order; entries that
are neither an existing file nor an existing directory contribute nothing;
and the empty list hashes to the hash of the empty string. -/
theorem claim_c3_content_hash :
    (∀ (fs : PyFS) (paths : List String),
      Hashes.of_paths fs paths =
        Hashes.of_str (String.join (paths.filterMap (Hashes.entryHash fs)))) ∧
    (∀ (fs : PyFS) (d : String), fs.isDir d = true →
      Hashes.entryHash fs d = some (Hashes.of_str (String.join
        (((sortStrings (fs.glob d)).filter (fun p => fs.isFile p)).map
          (fun p => Hashes.of_file fs p))))) ∧
    (∀ (fs : PyFS) (p : String), fs.isDir p = false → fs.isFile p = false →
      ∀ (pre post : List String),
        Hashes.of_paths fs (pre ++ p :: post) = Hashes.of_paths fs (pre ++ post)) ∧
    (∀ fs : PyFS, Hashes.of_paths fs [] = Hashes.of_str ("")) ∧
    (∀ fs₁ fs₂ : PyFS, fs₁.files.Perm fs₂.files → fs₁.dirs.Perm fs₂.dirs →
      (fs₁.files.map Prod.fst).Nodup →
      ∀ paths, Hashes.of_paths fs₁ paths = Hashes.of_paths fs₂ paths) := by
  refine ⟨fun _ _ => rfl, ?_, ?_, fun _ => rfl, ?_⟩
  · intro fs d hd
    simp [Hashes.entryHash, Hashes.of_folder, hd]
  · intro fs p hd hf pre post
    have he : Hashes.entryHash fs p = none := by
      simp [Hashes.entryHash, Hashes.of_folder, hd, hf]
    simp [Hashes.of_paths, List.filterMap_append, List.filterMap_cons, he]
  · intro fs₁ fs₂ hfperm hdperm nd paths
    exact Hashes.of_paths_eq_of_perm hfperm hdperm nd paths

/-- Witness for C3: two enumeration orders of the same directory tree hash
identically. -/
theorem claim_c3_witness :
    (c3WitnessFS1.files.Perm c3WitnessFS2.files ∧
      c3WitnessFS1.dirs.Perm c3WitnessFS2.dirs ∧
      (c3WitnessFS1.files.map Prod.fst).Nodup ∧
      c3WitnessFS1.isDir ("/a") = true) ∧
    (∀ paths, Hashes.of_paths c3WitnessFS1 paths = Hashes.of_paths c3WitnessFS2 paths) :=
  ⟨⟨by decide, by decide, by decide, by decide⟩,
    claim_c3_content_hash.2.2.2.2 c3WitnessFS1 c3WitnessFS2
      (by decide) (by decide) (by decide)⟩

/-! ## Claim C4: the two path-hash functions do not agree on directories -/

/-- On a path list with no directories, the loop of `utils.sha256_of_paths`
accumulates exactly the entry hashes of `Hashes.of_paths`. -/
theorem sha256_of_paths_hashes_no_dirs (fs : PyFS) :
    ∀ paths : List String, (∀ p ∈ paths, fs.isDir p = false) →
    sha256_of_paths_hashes fs paths = .ok (paths.filterMap (Hashes.entryHash fs)) := by
  intro paths
  induction paths with
  | nil => intro _; rfl
  | cons p rest ih =>
    intro h
    have hp : fs.isDir p = false := h p (List.mem_cons_self p rest)
    have hrest := ih (fun q hq => h q (List.mem_cons_of_mem p hq))
    cases hf : fs.isFile p with
    | true =>
      have hc : sha256_of_paths_contribution fs p
          = .ok [sha256_of_bytes ((fs.readBytes p).getD [])] := by
        simp [sha256_of_paths_contribution, hp, hf]
      have he : Hashes.entryHash fs p = some (Hashes.of_file fs p) := by
        simp [Hashes.entryHash, hp, hf]
      rw [sha256_of_paths_hashes, hc, hrest]
      rw [List.filterMap_cons, he]
      rfl
    | false =>
      have hc : sha256_of_paths_contribution fs p = .ok [] := by
        simp [sha256_of_paths_contribution, hp, hf]
      have he : Hashes.entryHash fs p = none := by
        simp [Hashes.entryHash, hp, hf]
      rw [sha256_of_paths_hashes, hc, hrest]
      rw [List.filterMap_cons, he]
      rfl

set_option maxRecDepth 20000 in
/-- C4 is refuted: for a directory, `utils.sha256_of_paths` splices every
contained file's hash into the top-level list, while `Hashes.of_paths` first
hashes the folder's concatenation (`Hashes.of_folder`) and hashes that single
hash again, so the two functions disagree on `["/d"]`. -/
theorem claim_c4_counterexample :
    sha256_of_paths c4CounterFS ["/d"]
      ≠ .ok (Hashes.of_paths c4CounterFS ["/d"]) := by
  have h1 : (sha256_of_paths c4CounterFS ["/d"]).toOption
      ≠ some (Hashes.of_paths c4CounterFS ["/d"]) := by decide
  intro h
  exact h1 (by rw [h]; rfl)

/-- C4 (amended): the two path-hash functions agree on every path list that
contains no directory (in particular on lists of plain files, on skipped
nonexistent paths, and on the empty list). -/
theorem claim_c4_amended (fs : PyFS) (paths : List String)
    (h : ∀ p ∈ paths, fs.isDir p = false) :
    sha256_of_paths fs paths = .ok (Hashes.of_paths fs paths) := by
  rw [sha256_of_paths, sha256_of_paths_hashes_no_dirs fs paths h]
  rfl

/-- Witness for C4 (amended) on a single regular file. -/
theorem claim_c4_witness :
    (∀ p ∈ ["/f"], c4WitnessFS.isDir p = false) ∧
    sha256_of_paths c4WitnessFS ["/f"] = .ok (Hashes.of_paths c4WitnessFS ["/f"]) :=
  ⟨by decide, claim_c4_amended c4WitnessFS ["/f"] (by decide)⟩

end AwsLambdaLayer
